import Mathlib

/-!
Shallow embedding of the Thud rules engine (`src/coord.rs`, `src/direction.rs`,
`src/board/raycast.rs`, `src/board/mod.rs`, `src/state.rs`) and proofs about it.

Conventions used throughout:
* Rust `usize` is modelled as `Nat`; wherever the source performs a subtraction
  that is guarded so it cannot underflow, Lean's truncated `Nat` subtraction
  agrees with the Rust value.  The one *unguarded* subtraction in the source
  (`Coord::one_based`) is modelled with `checked_sub`, whose `none` result
  stands for the arithmetic-underflow panic of a debug build.
* Rust `Result<T, ThudError>` is `Except ThudError T`.
* Rust methods taking `&mut self` are modelled as functions returning the
  result together with the new value of `self`.
* Rust's short-circuiting `||` over comparison expressions is rendered as a
  decidable `∨` inside `if`; the unevaluated branches it protects in Rust are
  total in Lean, so the values agree everywhere Rust is defined.
-/

namespace ThudGame

/-- `Piece` from `src/piece.rs`: every square holds exactly one of these. -/
inductive Piece where
  | Dwarf
  | Troll
  | Thudstone
  | Empty
deriving DecidableEq, Repr

/-- `Piece::default()` is `Empty`. -/
def Piece.default : Piece := .Empty

/-- `ThudError` from `src/lib.rs`, with the payloads actually used by the final
revision of the code (`coord.rs` builds `InvalidPosition` with no payload,
`board/mod.rs` builds `Obstacle(x, y)` and `LineTooShort(dist, len)`). -/
inductive ThudError where
  | InvalidPosition
  | IllegalMove
  | Obstacle (x y : Nat)
  | LineTooShort (needed found : Nat)
  | MathError
  | BadAction
deriving DecidableEq, Repr

/-- Rust's `Result` (`Except` here) supports `==`; the toolchain ships no
`DecidableEq` instance for `Except`, so provide the obvious one. -/
instance {ε α : Type} [DecidableEq ε] [DecidableEq α] : DecidableEq (Except ε α)
  | .error e, .error f =>
      if h : e = f then .isTrue (by rw [h]) else .isFalse (by intro hc; cases hc; exact h rfl)
  | .error _, .ok _ => .isFalse (by intro h; cases h)
  | .ok _, .error _ => .isFalse (by intro h; cases h)
  | .ok a, .ok b =>
      if h : a = b then .isTrue (by rw [h]) else .isFalse (by intro hc; cases hc; exact h rfl)

/-- `Player` from `src/lib.rs`. -/
inductive Player where
  | Dwarf
  | Troll
deriving DecidableEq, Repr

/-- `EndState` from `src/lib.rs`. -/
inductive EndState where
  | Won (p : Player)
  | Draw
deriving DecidableEq, Repr

/-- `Coord` from `src/coord.rs`.  The Rust constructor validates, but `diff`
builds values of this struct directly, so the Lean type carries no invariant. -/
structure Coord where
  x : Nat
  y : Nat
deriving DecidableEq, Repr

/-- `Coord::check_coords` from `src/coord.rs`.  The Rust `||` chain
short-circuits, so `15 - x` is only evaluated with `x ≤ 14` (no underflow);
Lean's truncated subtraction agrees there. -/
def Coord.check_coords (x y : Nat) : Except ThudError Unit :=
  if (x > 14) ∨ (y > 14)
      ∨ (x + y < 5) ∨ (x + y > 23)
      ∨ (15 - x + y < 6) ∨ (15 + x - y < 6) then
    .error .InvalidPosition
  else
    .ok ()

/-- `Coord::zero_based` from `src/coord.rs`. -/
def Coord.zero_based (x y : Nat) : Except ThudError Coord := do
  Coord.check_coords x y
  pure ⟨x, y⟩

/-- Rust `usize` subtraction under debug-profile overflow checking:
`none` models the `attempt to subtract with overflow` panic. -/
def checked_sub (a b : Nat) : Option Nat :=
  if b ≤ a then some (a - b) else none

/-- `Coord::one_based` from `src/coord.rs`: `let (x, y) = (x - 1, y - 1)` and
then the zero-based validation.  The subtractions are *not* guarded in the
source; `none` models the debug-build underflow panic at `x = 0` or `y = 0`
(a release build wraps to `2^64 - 1`, which then fails the `x > 14` check). -/
def Coord.one_based (x y : Nat) : Option (Except ThudError Coord) := do
  let x' ← checked_sub x 1
  let y' ← checked_sub y 1
  pure (Coord.zero_based x' y')

/-- `Coord::value` from `src/coord.rs`. -/
def Coord.value (c : Coord) : Nat × Nat := (c.x, c.y)

/-- `Coord::max` from `src/coord.rs`. -/
def Coord.max (c : Coord) : Nat :=
  if c.x > c.y then c.x else c.y

/-- `Coord::diff` from `src/coord.rs`: componentwise absolute difference,
built *without* re-validation. -/
def Coord.diff (c rhs : Coord) : Coord :=
  let new_x := if c.x > rhs.x then c.x - rhs.x else rhs.x - c.x
  let new_y := if c.y > rhs.y then c.y - rhs.y else rhs.y - c.y
  ⟨new_x, new_y⟩

/-- Derived notion used in the statements below: a `Coord` whose components
pass `check_coords`, i.e. one that the validating constructors could return. -/
def Coord.isValid (c : Coord) : Bool :=
  match Coord.check_coords c.x c.y with
  | .ok _ => true
  | .error _ => false

/-- `Direction` from `src/direction.rs`. -/
inductive Direction where
  | Up
  | UpRight
  | Right
  | DownRight
  | Down
  | DownLeft
  | Left
  | UpLeft
deriving DecidableEq, Repr

/-- `Direction::all` from `src/direction.rs`, in the source's fixed order. -/
def Direction.all : List Direction :=
  [.Up, .UpRight, .Right, .DownRight, .Down, .DownLeft, .Left, .UpLeft]

/-- `Direction::from_route` from `src/direction.rs`. -/
def Direction.from_route (start «end» : Coord) : Except ThudError Direction :=
  if start = «end» then
    .error .MathError
  else
    let (sx, sy) := start.value
    let (dx, dy) := «end».value
    let diff := (start.diff «end»).value
    if sx = dx then
      if sy < dy then .ok .Up else .ok .Down
    else if sy = dy then
      if sx < dx then .ok .Right else .ok .Left
    else if diff.1 = diff.2 then
      if sx < dx then
        if sy < dy then .ok .UpRight else .ok .DownRight
      else
        if sy < dy then .ok .UpLeft else .ok .DownLeft
    else
      .error .MathError

/-- `Direction::modifier` from `src/direction.rs`. -/
def Direction.modifier : Direction → Int × Int
  | .Up => (0, 1)
  | .UpRight => (1, 1)
  | .Right => (1, 0)
  | .DownRight => (1, -1)
  | .Down => (0, -1)
  | .DownLeft => (-1, -1)
  | .Left => (-1, 0)
  | .UpLeft => (-1, 1)

/-- `Direction::modify` from `src/direction.rs`: one bounds-checked step.
The source's `match` on the `isize` modifier components is rendered as the
equivalent conditional chain. -/
def Direction.modify (d : Direction) (loc : Coord) : Except ThudError Coord :=
  let m := d.modifier
  let (x, y) := loc.value
  -- "Avoid overflows"
  if (x = 0 ∧ m.1 = -1) ∨ (y = 0 ∧ m.2 = -1) then
    .error .MathError
  else
    let nx := if m.1 = 1 then x + 1 else if m.1 = -1 then x - 1 else x
    let ny := if m.2 = 1 then y + 1 else if m.2 = -1 then y - 1 else y
    match Coord.zero_based nx ny with
    | .ok coord => .ok coord
    | .error _ => .error .MathError

/-- `Direction::opposite` from `src/direction.rs`. -/
def Direction.opposite : Direction → Direction
  | .Up => .Down
  | .UpRight => .DownLeft
  | .Right => .Left
  | .DownRight => .UpLeft
  | .Down => .Up
  | .DownLeft => .UpRight
  | .Left => .Right
  | .UpLeft => .DownRight

/-- `Board` from `src/board/mod.rs`: a 15×15 occupancy grid.  The grid is
modelled as a total function on the raw axes; the source only ever indexes it
through `Coord`s that were validated on construction. -/
def Board := Nat → Nat → Piece

/-- `Board::default()`: every square `Piece::Empty`. -/
def Board.default : Board := fun _ _ => Piece.Empty

/-- `Board::place` from `src/board/mod.rs`. -/
def Board.place (b : Board) (square : Coord) (piece : Piece) : Board :=
  fun x y => if x = square.x ∧ y = square.y then piece else b x y

/-- `Board::get` from `src/board/mod.rs`. -/
def Board.get (b : Board) (square : Coord) : Piece :=
  b square.x square.y

/-- `Board::fresh` from `src/board/mod.rs`: trolls in the 3×3 centre block,
four diagonal arms of six dwarves each, eight corner dwarves, thudstone last. -/
def Board.fresh : Board :=
  let b0 := Board.default
  -- Place the trolls: `for i in 6..9 { for j in 6..9 { place((i, j), Troll) } }`
  let trolls := (List.range' 6 3).flatMap fun i => (List.range' 6 3).map fun j => (i, j)
  let b1 := trolls.foldl (fun b p => b.place ⟨p.1, p.2⟩ .Troll) b0
  -- Diagonal arms: the four closures applied to seeds `0..=5`
  let calcs : List (Nat → Nat × Nat) :=
    [fun num => (num, 5 - num),
     fun num => (num + 9, num),
     fun num => (num, num + 9),
     fun num => (num + 9, 14 - num)]
  let b2 := calcs.foldl
    (fun b calcF => ((List.range 6).map calcF).foldl (fun b p => b.place ⟨p.1, p.2⟩ .Dwarf) b) b1
  -- Extras at corners
  let corners : List (Nat × Nat) :=
    [(0, 6), (0, 8), (14, 6), (14, 8), (6, 0), (8, 0), (6, 14), (8, 14)]
  let b3 := corners.foldl (fun b p => b.place ⟨p.1, p.2⟩ .Dwarf) b2
  -- Place the thudstone
  b3.place ⟨7, 7⟩ .Thudstone

/-- `Board::full_raw` from `src/board/mod.rs` (the snapshot accessor). -/
def Board.full_raw (b : Board) : List (List Piece) :=
  (List.range 15).map fun x => (List.range 15).map fun y => b x y

/-- `Board::army` from `src/board/mod.rs`: scan the grid in `x`-major order and
collect the coordinates holding `piece_type` (re-validated via `zero_based`). -/
def Board.army (b : Board) (piece_type : Piece) : List Coord :=
  (List.range 15).flatMap fun x =>
    (List.range 15).filterMap fun y =>
      if b x y = piece_type then
        match Coord.zero_based x y with
        | .ok coord => some coord
        | .error _ => none
      else none

/-- `RayCast` from `src/board/raycast.rs`, materialised as the list of pairs
the iterator yields.  The state is `next_place : Result<Coord, ThudError>`
exactly as in the source.  The iterator is finite because a successful
`Direction::modify` always lands inside the validated region (both axes
`≤ 14`) and each step moves at least one axis monotonically, so after the
first element at most 14 more follow; the fuel of 16 is therefore never the
reason the walk stops. -/
def castFrom (b : Board) (dir : Direction) : Except ThudError Coord → Nat → List (Coord × Piece)
  | _, 0 => []
  | .error _, _ => []
  | .ok coord, n + 1 => (coord, b.get coord) :: castFrom b dir (dir.modify coord) n

/-- `Board::cast` from `src/board/mod.rs`: the ray starts one step beyond
`loc` and never includes `loc` itself. -/
def Board.cast (b : Board) (loc : Coord) (dir : Direction) : List (Coord × Piece) :=
  castFrom b dir (dir.modify loc) 16

/-- `Board::adjacent` from `src/board/mod.rs`. -/
def Board.adjacent (b : Board) (square : Coord) : List (Coord × Piece) :=
  Direction.all.filterMap fun dir =>
    match dir.modify square with
    | .ok coord => some (coord, b.get coord)
    | .error _ => none

/-- The loop body of `Board::count_line`: length of the leading run of
`piece` in the ray. -/
def countLoop (piece : Piece) : List (Coord × Piece) → Nat
  | [] => 0
  | (_, cur_piece) :: rest =>
      if cur_piece = piece then 1 + countLoop piece rest else 0

/-- `Board::count_line` from `src/board/mod.rs`: `0` if `start` does not hold
`piece`, else `1` plus the consecutive matches along the ray. -/
def Board.count_line (b : Board) (start : Coord) (dir : Direction) (piece : Piece) : Nat :=
  if b.get start ≠ piece then 0
  else 1 + countLoop piece (b.cast start dir)

/-- The loop of `Board::verify_clear`: walk the ray, stop at `dest`, fail on
the first occupied square before it. -/
def clearLoop (dest : Coord) : List (Coord × Piece) → Except ThudError Unit
  | [] => .ok ()
  | (current, piece) :: rest =>
      if current = dest then .ok ()
      else if piece ≠ Piece.Empty then .error (.Obstacle current.x current.y)
      else clearLoop dest rest

/-- `Board::verify_clear` from `src/board/mod.rs`. -/
def Board.verify_clear (b : Board) (src dest : Coord) : Except ThudError Unit := do
  let dir ← Direction.from_route src dest
  clearLoop dest (b.cast src dir)

/-- Rust `Result::unwrap` on the `from_route` calls inside `troll_shove` and
`dwarf_hurl`.  The `.error` arm models the panic; as the source comment notes,
it is unreachable there because `verify_clear` has already succeeded on the
same pair of squares. -/
def unwrapDir : Except ThudError Direction → Direction
  | .ok d => d
  | .error _ => .Up

/-- `Board::troll_move` from `src/board/mod.rs`. -/
def Board.troll_move (b : Board) (troll target : Coord) : Except ThudError Unit × Board :=
  if (b.get troll, b.get target) ≠ (Piece.Troll, Piece.Empty) then
    (.error .IllegalMove, b)
  else if (troll.diff target).max ≠ 1 then
    (.error .IllegalMove, b)
  else
    (.ok (), (b.place troll .Empty).place target .Troll)

/-- `Board::troll_shove` from `src/board/mod.rs`. -/
def Board.troll_shove (b : Board) (troll target : Coord) : Except ThudError Unit × Board :=
  if (b.get troll, b.get target) ≠ (Piece.Troll, Piece.Empty) then
    (.error .IllegalMove, b)
  else
    match b.verify_clear troll target with
    | .error e => (.error e, b)
    | .ok _ =>
      let dwarves := (b.adjacent target).filter fun z => z.2 = Piece.Dwarf
      if dwarves.length = 0 then
        (.error .IllegalMove, b)
      else
        let troll_len := b.count_line troll (unwrapDir (Direction.from_route target troll)) .Troll
        let dist := (troll.diff target).max
        if dist > troll_len then
          (.error (.LineTooShort dist troll_len), b)
        else
          (.ok (), (b.place troll .Empty).place target .Troll)

/-- The capture loop of `Board::troll_capture`: for each requested direction,
if the bounds-checked neighbour holds a dwarf, remove it and count it. -/
def capLoop (troll : Coord) : Board → List Direction → Nat × Board
  | b, [] => (0, b)
  | b, target :: rest =>
    match target.modify troll with
    | .ok coord =>
        if b.get coord = Piece.Dwarf then
          let step := capLoop troll (b.place coord .Empty) rest
          (step.1 + 1, step.2)
        else
          capLoop troll b rest
    | .error _ => capLoop troll b rest

/-- `Board::troll_capture` from `src/board/mod.rs`. -/
def Board.troll_capture (b : Board) (troll : Coord) (targets : List Direction) :
    Except ThudError Nat × Board :=
  if b.get troll ≠ Piece.Troll then
    (.error .IllegalMove, b)
  else
    let r := capLoop troll b targets
    (.ok r.1, r.2)

/-- `Board::dwarf_move` from `src/board/mod.rs`. -/
def Board.dwarf_move (b : Board) (dwarf target : Coord) : Except ThudError Unit × Board :=
  if (b.get dwarf, b.get target) ≠ (Piece.Dwarf, Piece.Empty) then
    (.error .IllegalMove, b)
  else
    match b.verify_clear dwarf target with
    | .error e => (.error e, b)
    | .ok _ => (.ok (), (b.place dwarf .Empty).place target .Dwarf)

/-- `Board::dwarf_hurl` from `src/board/mod.rs` (the final revision: the
target must hold a troll, which is replaced by the hurled dwarf). -/
def Board.dwarf_hurl (b : Board) (dwarf target : Coord) : Except ThudError Unit × Board :=
  if b.get dwarf ≠ Piece.Dwarf ∨ b.get target ≠ Piece.Troll then
    (.error .IllegalMove, b)
  else
    match b.verify_clear dwarf target with
    | .error e => (.error e, b)
    | .ok _ =>
      let dwarf_len := b.count_line dwarf (unwrapDir (Direction.from_route target dwarf)) .Dwarf
      let dist := (dwarf.diff target).max
      if dwarf_len < dist then
        (.error (.LineTooShort dist dwarf_len), b)
      else
        (.ok (), (b.place dwarf .Empty).place target .Dwarf)

/-- The dwarf arm of the `available_moves` ray walk: `count` is the 0-based
`enumerate` index of the current ray element. -/
def dwarfWalk (line_behind : Nat) : List (Coord × Piece) → Nat → List Coord
  | [], _ => []
  | (poss, piece) :: rest, count =>
    match piece with
    | .Empty => poss :: dwarfWalk line_behind rest (count + 1)
    | .Troll => if count ≤ line_behind then [poss] else []
    | _ => []

/-- The troll arm of the `available_moves` ray walk: collect empty squares,
break at the first occupied one. -/
def trollWalk : List (Coord × Piece) → List Coord
  | [] => []
  | (poss, piece) :: rest =>
    match piece with
    | .Empty => poss :: trollWalk rest
    | _ => []

/-- `Board::available_moves` from `src/board/mod.rs`.  The troll arm mirrors
the source's `cast.next(); cast.take(behind_line)` as `drop 1` followed by
`take behind_line`. -/
def Board.available_moves (b : Board) (loc : Coord) : List Coord :=
  match b.get loc with
  | .Dwarf =>
      Direction.all.flatMap fun dir =>
        let line_behind := b.count_line loc dir.opposite .Dwarf
        dwarfWalk line_behind (b.cast loc dir) 0
  | .Troll =>
      Direction.all.flatMap fun dir =>
        let behind_line := b.count_line loc dir.opposite .Troll
        trollWalk (((b.cast loc dir).drop 1).take behind_line)
  | _ => []

/-- `Board::score` from `src/board/mod.rs`: `(dwarves, trolls * 4)`. -/
def Board.score (b : Board) : Nat × Nat :=
  ((b.army .Dwarf).length, (b.army .Troll).length * 4)

/-- `Board::winner` from `src/board/mod.rs`. -/
def Board.winner (b : Board) : Option EndState :=
  let dwarf_moves := ((b.army .Dwarf).map fun dwarf => (b.available_moves dwarf).length).sum
  let troll_moves := ((b.army .Troll).map fun troll => (b.available_moves troll).length).sum
  if troll_moves = 0 ∨ dwarf_moves = 0 then
    let s := b.score
    if s.1 > s.2 then some (.Won .Dwarf)
    else if s.2 > s.1 then some (.Won .Troll)
    else some .Draw
  else
    none

/-- `GameState` from `src/state.rs`. -/
inductive GameState where
  | Nominal (p : Player)
  | PostTrollMove (captured_by_attack : Bool)
  | GameEnded (e : EndState)
deriving DecidableEq, Repr

/-- `Thud` from `src/state.rs`: a board plus the turn phase. -/
structure Thud where
  board : Board
  state : GameState

/-- `Thud::new` from `src/state.rs`. -/
def Thud.new : Thud := ⟨Board.fresh, .Nominal .Dwarf⟩

/-- `Thud::turn` from `src/state.rs`. -/
def Thud.turn (t : Thud) : Option Player :=
  match t.state with
  | .Nominal p => some p
  | .PostTrollMove _ => some .Troll
  | .GameEnded _ => none

/-- `Thud::winner` from `src/state.rs`: returns the cached result when the
phase is ended, otherwise consults `Board::winner` and latches any result. -/
def Thud.winner (t : Thud) : Option EndState × Thud :=
  match t.state with
  | .GameEnded p => (some p, t)
  | _ =>
    match t.board.winner with
    | some p => (some p, { t with state := .GameEnded p })
    | none => (none, t)

/-- `Thud::score` from `src/state.rs`. -/
def Thud.score (t : Thud) : Nat × Nat := t.board.score

/-- `Thud::move_piece` from `src/state.rs`. -/
def Thud.move_piece (t : Thud) (src target : Coord) : Except ThudError Unit × Thud :=
  match t.state with
  | .Nominal .Dwarf =>
    match t.board.dwarf_move src target with
    | (.error e, b') => (.error e, { t with board := b' })
    | (.ok _, b') => (.ok (), { board := b', state := .Nominal .Troll })
  | .Nominal .Troll =>
    match t.board.troll_move src target with
    | (.error e, b') => (.error e, { t with board := b' })
    | (.ok _, b') => (.ok (), { board := b', state := .PostTrollMove false })
  | _ => (.error .BadAction, t)

/-- `Thud::attack` from `src/state.rs`. -/
def Thud.attack (t : Thud) (src target : Coord) : Except ThudError Unit × Thud :=
  match t.state with
  | .Nominal .Dwarf =>
    match t.board.dwarf_hurl src target with
    | (.error e, b') => (.error e, { t with board := b' })
    | (.ok _, b') => (.ok (), { board := b', state := .Nominal .Troll })
  | .Nominal .Troll =>
    match t.board.troll_shove src target with
    | (.error e, b') => (.error e, { t with board := b' })
    | (.ok _, b') => (.ok (), { board := b', state := .PostTrollMove true })
  | _ => (.error .BadAction, t)

/-- `Thud::troll_cap` from `src/state.rs`. -/
def Thud.troll_cap (t : Thud) (troll : Coord) (targets : List Direction) :
    Except ThudError Unit × Thud :=
  match t.state with
  | .PostTrollMove true =>
    match t.board.troll_capture troll targets with
    | (.error e, b') => (.error e, { t with board := b' })
    | (.ok captured, b') =>
        if captured = 0 then (.error .IllegalMove, { t with board := b' })
        else (.ok (), { board := b', state := .Nominal .Dwarf })
  | .PostTrollMove false =>
    match t.board.troll_capture troll targets with
    | (.error e, b') => (.error e, { t with board := b' })
    | (.ok _, b') => (.ok (), { board := b', state := .Nominal .Dwarf })
  | _ => (.error .BadAction, t)

/-- One invocation of the public `Thud` API, for reasoning about arbitrary
sequences of subsequent calls. -/
inductive Op where
  | winnerQ
  | movePiece (src target : Coord)
  | attackMv (src target : Coord)
  | trollCap (troll : Coord) (targets : List Direction)

/-- Run one API call, keeping only the successor state. -/
def applyOp (t : Thud) : Op → Thud
  | .winnerQ => (Thud.winner t).2
  | .movePiece src target => (Thud.move_piece t src target).2
  | .attackMv src target => (Thud.attack t src target).2
  | .trollCap troll targets => (Thud.troll_cap t troll targets).2

/-- Run a sequence of API calls. -/
def applyOps (t : Thud) (ops : List Op) : Thud :=
  ops.foldl applyOp t

/-! ### Helper lemmas about the coordinate region -/

/-- The octagonal-region test, rewritten without truncated subtraction:
with `x ≤ 14` in force, `15 - x + y ≥ 6 ↔ x ≤ y + 9` and
`15 + x - y ≥ 6 ↔ y ≤ x + 9`. -/
def InRegion (x y : Nat) : Prop :=
  x ≤ 14 ∧ y ≤ 14 ∧ 5 ≤ x + y ∧ x + y ≤ 23 ∧ x ≤ y + 9 ∧ y ≤ x + 9

instance (x y : Nat) : Decidable (InRegion x y) := by
  unfold InRegion; infer_instance

lemma check_coords_ok_iff (x y : Nat) :
    Coord.check_coords x y = .ok () ↔ InRegion x y := by
  unfold Coord.check_coords InRegion
  split <;> rename_i h
  · exact iff_of_false (by simp) (by omega)
  · exact iff_of_true rfl (by omega)

lemma zero_based_ok_of {x y : Nat} (h : InRegion x y) :
    Coord.zero_based x y = .ok ⟨x, y⟩ := by
  have hc : Coord.check_coords x y = .ok () := (check_coords_ok_iff x y).mpr h
  unfold Coord.zero_based
  rw [hc]; rfl

lemma zero_based_error_of {x y : Nat} (h : ¬ InRegion x y) :
    Coord.zero_based x y = .error .InvalidPosition := by
  unfold Coord.zero_based Coord.check_coords
  split <;> rename_i hs
  · rfl
  · exact absurd (by unfold InRegion; omega) h

lemma zero_based_ok_elim {x y : Nat} {c : Coord} (h : Coord.zero_based x y = .ok c) :
    c = ⟨x, y⟩ ∧ InRegion x y := by
  by_cases hr : InRegion x y
  · rw [zero_based_ok_of hr] at h
    exact ⟨(Except.ok.inj h).symm, hr⟩
  · rw [zero_based_error_of hr] at h
    cases h

lemma isValid_iff (c : Coord) : c.isValid = true ↔ InRegion c.x c.y := by
  unfold Coord.isValid
  constructor
  · intro h
    rcases he : Coord.check_coords c.x c.y with e | u
    · rw [he] at h; simp at h
    · exact (check_coords_ok_iff c.x c.y).mp he
  · intro h
    rw [(check_coords_ok_iff c.x c.y).mpr h]

/-! ### C4, C5, C6 -/

/-- C4 counterexample: `(7,0)` and `(7,14)` are both valid board coordinates,
but their `diff` is `(0,14)`, which violates `15 + x - y ≥ 6` and is therefore
not a valid board coordinate. -/
theorem coord_diff_leaves_region :
    (Coord.mk 7 0).isValid = true
    ∧ (Coord.mk 7 14).isValid = true
    ∧ (Coord.mk 7 0).diff ⟨7, 14⟩ = ⟨0, 14⟩
    ∧ ((Coord.mk 7 0).diff ⟨7, 14⟩).isValid = false := by decide

/-- C4 amended: every `Coord` produced by the validating constructors
(`zero_based`, `one_based`) or by `Direction::modify` satisfies the
four-inequality region predicate, so `value()` on such coordinates is a valid
board address; `diff`, however, is an unvalidated componentwise difference and
may leave the region. -/
theorem coord_constructors_stay_in_region :
    (∀ x y : Nat, ∀ c : Coord, Coord.zero_based x y = .ok c → c.isValid = true)
    ∧ (∀ x y : Nat, ∀ c : Coord, Coord.one_based x y = some (.ok c) → c.isValid = true)
    ∧ (∀ (d : Direction) (loc c : Coord), Direction.modify d loc = .ok c → c.isValid = true) := by
  have hz : ∀ x y : Nat, ∀ c : Coord, Coord.zero_based x y = .ok c → c.isValid = true := by
    intro x y c h
    obtain ⟨rfl, hr⟩ := zero_based_ok_elim h
    exact (isValid_iff _).mpr hr
  refine ⟨hz, ?_, ?_⟩
  · intro x y c h
    unfold Coord.one_based at h
    rcases hx : checked_sub x 1 with _ | x' <;> rw [hx] at h
    · cases h
    rcases hy : checked_sub y 1 with _ | y' <;> rw [hy] at h
    · cases h
    exact hz x' y' c (Option.some.inj h)
  · intro d loc c h
    unfold Direction.modify at h
    dsimp only at h
    split at h
    · cases h
    · split at h <;> rename_i hz'
      · exact hz _ _ c (by rw [hz']; exact congrArg Except.ok (Except.ok.inj h))
      · cases h

/-- C4 witness: instantiating the amended theorem at `zero_based 7 7`. -/
theorem coord_constructors_stay_in_region_witness :
    (Coord.mk 7 7).isValid = true :=
  coord_constructors_stay_in_region.1 7 7 ⟨7, 7⟩ (by decide)

/-- C5, the code evaluated at the failing inputs: `one_based` performs an
unguarded `usize` subtraction, so `one_based(0, 5)` and `one_based(5, 0)`
underflow (`none` = the debug-build panic) instead of returning
`Err(InvalidPosition)`; inputs with both axes `≥ 1` behave as the claim says. -/
theorem one_based_underflow_aborts :
    Coord.one_based 0 5 = none
    ∧ Coord.one_based 5 0 = none
    ∧ Coord.one_based 1 6 = some (.ok ⟨0, 5⟩)
    ∧ Coord.one_based 1 1 = some (.error .InvalidPosition)
    ∧ Coord.one_based 8 8 = some (.ok ⟨7, 7⟩) := by decide

/-- C6: for `x, y ≤ 14`, `zero_based` succeeds exactly on the octagonal
region `5 ≤ x+y ≤ 23 ∧ 15-x+y ≥ 6 ∧ 15+x-y ≥ 6`; any `x > 14` or `y > 14`
fails with `InvalidPosition`; concretely `(7,7)` and `(5,0)` are valid while
`(0,0)` and `(4,0)` are not. -/
theorem zero_based_region_characterisation :
    (∀ x y : Nat, x ≤ 14 → y ≤ 14 →
      ((∃ c, Coord.zero_based x y = .ok c) ↔
        (5 ≤ x + y ∧ x + y ≤ 23 ∧ 6 ≤ 15 - x + y ∧ 6 ≤ 15 + x - y)))
    ∧ (∀ x y : Nat, 14 < x ∨ 14 < y → Coord.zero_based x y = .error .InvalidPosition)
    ∧ (∃ c, Coord.zero_based 7 7 = .ok c)
    ∧ (∃ c, Coord.zero_based 5 0 = .ok c)
    ∧ Coord.zero_based 0 0 = .error .InvalidPosition
    ∧ Coord.zero_based 4 0 = .error .InvalidPosition := by
  refine ⟨?_, ?_, ⟨⟨7, 7⟩, by decide⟩, ⟨⟨5, 0⟩, by decide⟩, by decide, by decide⟩
  · intro x y hx hy
    constructor
    · rintro ⟨c, hc⟩
      have hr := (zero_based_ok_elim hc).2
      unfold InRegion at hr
      omega
    · intro h
      exact ⟨⟨x, y⟩, zero_based_ok_of (by unfold InRegion; omega)⟩
  · intro x y h
    exact zero_based_error_of (by unfold InRegion; omega)

/-- C6 witness: the characterisation applied at `(7, 7)`. -/
theorem zero_based_region_characterisation_witness :
    ∃ c, Coord.zero_based 7 7 = .ok c :=
  (zero_based_region_characterisation.1 7 7 (by decide) (by decide)).mpr (by decide)

/-! ### C1, C2: the two arms of `available_moves` against the mutators -/

/-- An otherwise empty board with a single troll at `(7,7)`. -/
def loneTrollBoard : Board := Board.default.place ⟨7, 7⟩ .Troll

/-- The same board with a dwarf blocking the square directly above the troll. -/
def blockedTrollBoard : Board := loneTrollBoard.place ⟨7, 8⟩ .Dwarf

/-- C1, the code evaluated at the failing input: for a lone troll at `(7,7)`
(supporting line length 1 in every direction) `available_moves` skips the
adjacent squares entirely and returns exactly the eight squares at Chebyshev
distance 2 — although `(7,8)` is adjacent and empty (and `troll_move` accepts
it), and no mutator accepts a plain move to distance 2.  With a dwarf placed
on `(7,8)` the enumerator still lists `(7,9)`, walking through the occupied
adjacent square. -/
theorem troll_available_moves_skip_adjacent :
    loneTrollBoard.available_moves ⟨7, 7⟩ =
      [⟨7, 9⟩, ⟨9, 9⟩, ⟨9, 7⟩, ⟨9, 5⟩, ⟨7, 5⟩, ⟨5, 5⟩, ⟨5, 7⟩, ⟨5, 9⟩]
    ∧ loneTrollBoard.get ⟨7, 8⟩ = .Empty
    ∧ loneTrollBoard.count_line ⟨7, 7⟩ .Down .Troll = 1
    ∧ (⟨7, 8⟩ : Coord) ∉ loneTrollBoard.available_moves ⟨7, 7⟩
    ∧ (loneTrollBoard.troll_move ⟨7, 7⟩ ⟨7, 8⟩).1 = .ok ()
    ∧ (loneTrollBoard.troll_move ⟨7, 7⟩ ⟨7, 9⟩).1 = .error .IllegalMove
    ∧ (loneTrollBoard.troll_shove ⟨7, 7⟩ ⟨7, 9⟩).1 = .error .IllegalMove
    ∧ blockedTrollBoard.get ⟨7, 8⟩ = .Dwarf
    ∧ (⟨7, 9⟩ : Coord) ∈ blockedTrollBoard.available_moves ⟨7, 7⟩ := by decide!

/-- A lone dwarf at `(7,7)` with a troll two squares up at `(7,9)`. -/
def loneDwarfBoard : Board := (Board.default.place ⟨7, 7⟩ .Dwarf).place ⟨7, 9⟩ .Troll

/-- C2, the code evaluated at the failing input: the dwarf's supporting line
has length 1 and the troll sits at Chebyshev distance 2 with a clear path, yet
`available_moves` lists it (its condition is `d ≤ line + 1`) while
`dwarf_hurl` rejects exactly this move with `LineTooShort(2, 1)` (its
condition is `d ≤ line`): the enumerator and the mutator disagree at
`d = line + 1`. -/
theorem dwarf_enumerator_hurl_mismatch :
    (⟨7, 9⟩ : Coord) ∈ loneDwarfBoard.available_moves ⟨7, 7⟩
    ∧ loneDwarfBoard.count_line ⟨7, 7⟩ .Down .Dwarf = 1
    ∧ ((⟨7, 7⟩ : Coord).diff ⟨7, 9⟩).max = 2
    ∧ loneDwarfBoard.verify_clear ⟨7, 7⟩ ⟨7, 9⟩ = .ok ()
    ∧ (loneDwarfBoard.dwarf_hurl ⟨7, 7⟩ ⟨7, 9⟩).1 = .error (.LineTooShort 2 1) := by decide!

/-! ### C3: the troll-shove scenario -/

/-- The spec's scenario board: a fresh board with extra trolls at
`(3,6)`, `(4,6)`, `(5,6)`. -/
def shoveScenarioBoard : Board :=
  ((Board.fresh.place ⟨3, 6⟩ .Troll).place ⟨4, 6⟩ .Troll).place ⟨5, 6⟩ .Troll

/-- C3 counterexample: on the scenario board the shove `(8,6) → (12,6)` fails
with `IllegalMove` — not with `LineTooShort` as the claim states.  (The troll
line of length 6 easily covers the distance 4; what fails is the "at least one
dwarf adjacent to the target" precondition, which is checked first.) -/
theorem troll_shove_12_6_fails_illegal_move :
    (shoveScenarioBoard.troll_shove ⟨8, 6⟩ ⟨12, 6⟩).1 = .error .IllegalMove
    ∧ (match (shoveScenarioBoard.troll_shove ⟨8, 6⟩ ⟨12, 6⟩).1 with
        | .error (.LineTooShort _ _) => False
        | _ => True) :=
  ⟨by decide!, trivial⟩

/-- C3 amended: on the scenario board `troll_shove((8,6) → (13,6))` succeeds
(line length 6 ≥ distance 5, dwarves adjacent to the target), while
`troll_shove((8,6) → (12,6))` fails with `IllegalMove`, because no dwarf is
adjacent to `(12,6)`; the supporting line is long enough for that distance,
so `LineTooShort` is never reached. -/
theorem troll_shove_scenario :
    (shoveScenarioBoard.troll_shove ⟨8, 6⟩ ⟨13, 6⟩).1 = .ok ()
    ∧ (shoveScenarioBoard.troll_shove ⟨8, 6⟩ ⟨13, 6⟩).2.get ⟨8, 6⟩ = .Empty
    ∧ (shoveScenarioBoard.troll_shove ⟨8, 6⟩ ⟨13, 6⟩).2.get ⟨13, 6⟩ = .Troll
    ∧ shoveScenarioBoard.count_line ⟨8, 6⟩ .Left .Troll = 6
    ∧ ((⟨8, 6⟩ : Coord).diff ⟨13, 6⟩).max = 5
    ∧ ((⟨8, 6⟩ : Coord).diff ⟨12, 6⟩).max = 4
    ∧ ((shoveScenarioBoard.adjacent ⟨12, 6⟩).filter fun z => z.2 = Piece.Dwarf) = []
    ∧ (shoveScenarioBoard.troll_shove ⟨8, 6⟩ ⟨12, 6⟩).1 = .error .IllegalMove := by decide!

/-! ### C8: `troll_cap` in the two post-move phases -/

/-- A game in phase `PostTrollMove(false)` over the fresh board (reachable:
dwarf move, then troll move, leaves this phase). -/
def postMoveGame : Thud := ⟨Board.fresh, .PostTrollMove false⟩

/-- C8 counterexample: in `PostTrollMove(false)` the claim says `troll_cap`
always succeeds, but calling it with a source square that does not hold a
troll — here `(0,5)`, a dwarf — propagates `IllegalMove` from
`Board::troll_capture` and leaves the phase unchanged. -/
theorem troll_cap_post_move_can_fail :
    postMoveGame.board.get ⟨0, 5⟩ = .Dwarf
    ∧ (postMoveGame.troll_cap ⟨0, 5⟩ []).1 = .error .IllegalMove
    ∧ (postMoveGame.troll_cap ⟨0, 5⟩ []).2.state = .PostTrollMove false := by decide!

/-! ### C7: failing mutators leave the board and phase unchanged -/

lemma capLoop_zero (troll : Coord) (b : Board) (l : List Direction)
    (h : (capLoop troll b l).1 = 0) : (capLoop troll b l).2 = b := by
  induction l generalizing b with
  | nil => rfl
  | cons target rest ih =>
    rw [capLoop] at h ⊢
    rcases hm : target.modify troll with e | coord
    all_goals rw [hm] at h
    all_goals dsimp only at h ⊢
    · exact ih b h
    · by_cases hg : b.get coord = Piece.Dwarf
      · rw [if_pos hg] at h
        dsimp only at h
        omega
      · rw [if_neg hg] at h ⊢
        exact ih b h

lemma troll_move_err {b : Board} {s d : Coord} {e : ThudError} {b2 : Board}
    (h : Board.troll_move b s d = (.error e, b2)) : b2 = b := by
  unfold Board.troll_move at h
  split at h
  · cases h; rfl
  · split at h
    · cases h; rfl
    · cases h

lemma troll_shove_err {b : Board} {s d : Coord} {e : ThudError} {b2 : Board}
    (h : Board.troll_shove b s d = (.error e, b2)) : b2 = b := by
  unfold Board.troll_shove at h
  split at h
  · cases h; rfl
  · split at h
    · cases h; rfl
    · dsimp only at h
      split at h
      · cases h; rfl
      · split at h
        · cases h; rfl
        · cases h

lemma troll_capture_err {b : Board} {s : Coord} {ts : List Direction} {e : ThudError} {b2 : Board}
    (h : Board.troll_capture b s ts = (.error e, b2)) : b2 = b := by
  unfold Board.troll_capture at h
  split at h
  · cases h; rfl
  · cases h

lemma troll_capture_ok_zero {b : Board} {s : Coord} {ts : List Direction} {b2 : Board}
    (h : Board.troll_capture b s ts = (.ok 0, b2)) : b2 = b := by
  unfold Board.troll_capture at h
  split at h
  · cases h
  · injection h with h1 h2
    injection h1 with h1
    rw [← h2]
    exact capLoop_zero _ _ _ h1

lemma dwarf_move_err {b : Board} {s d : Coord} {e : ThudError} {b2 : Board}
    (h : Board.dwarf_move b s d = (.error e, b2)) : b2 = b := by
  unfold Board.dwarf_move at h
  split at h
  · cases h; rfl
  · split at h
    · cases h; rfl
    · cases h

lemma dwarf_hurl_err {b : Board} {s d : Coord} {e : ThudError} {b2 : Board}
    (h : Board.dwarf_hurl b s d = (.error e, b2)) : b2 = b := by
  unfold Board.dwarf_hurl at h
  split at h
  · cases h; rfl
  · split at h
    · cases h; rfl
    · dsimp only at h
      split at h
      · cases h; rfl
      · cases h

lemma move_piece_err {t : Thud} {s d : Coord} {e : ThudError} {t2 : Thud}
    (h : Thud.move_piece t s d = (.error e, t2)) : t2 = t := by
  unfold Thud.move_piece at h
  split at h
  · split at h <;> rename_i hm
    · cases h
      rw [dwarf_move_err hm]
    · cases h
  · split at h <;> rename_i hm
    · cases h
      rw [troll_move_err hm]
    · cases h
  · cases h; rfl

lemma attack_err {t : Thud} {s d : Coord} {e : ThudError} {t2 : Thud}
    (h : Thud.attack t s d = (.error e, t2)) : t2 = t := by
  unfold Thud.attack at h
  split at h
  · split at h <;> rename_i hm
    · cases h
      rw [dwarf_hurl_err hm]
    · cases h
  · split at h <;> rename_i hm
    · cases h
      rw [troll_shove_err hm]
    · cases h
  · cases h; rfl

lemma troll_cap_err {t : Thud} {s : Coord} {ts : List Direction} {e : ThudError} {t2 : Thud}
    (h : Thud.troll_cap t s ts = (.error e, t2)) : t2 = t := by
  unfold Thud.troll_cap at h
  split at h
  · split at h <;> rename_i hm
    · cases h
      rw [troll_capture_err hm]
    · split at h <;> rename_i hz
      · cases h
        subst hz
        rw [troll_capture_ok_zero hm]
      · cases h
  · split at h <;> rename_i hm
    · cases h
      rw [troll_capture_err hm]
    · cases h
  · cases h; rfl

/-- C7: every failing call to the five `Board` mutators and the three `Thud`
mutators leaves the board grid — and, for `Thud`, the turn phase — exactly as
it was before the call: the error branches all return the incoming state
unchanged, and the one mutation interleaved with a later error check
(`troll_capture` inside `troll_cap`) only errors when it captured nothing and
hence changed nothing. -/
theorem failing_calls_leave_state_unchanged :
    (∀ (b : Board) (src dst : Coord) (e : ThudError),
        (b.troll_move src dst).1 = .error e → (b.troll_move src dst).2 = b)
    ∧ (∀ (b : Board) (src dst : Coord) (e : ThudError),
        (b.troll_shove src dst).1 = .error e → (b.troll_shove src dst).2 = b)
    ∧ (∀ (b : Board) (src : Coord) (ts : List Direction) (e : ThudError),
        (b.troll_capture src ts).1 = .error e → (b.troll_capture src ts).2 = b)
    ∧ (∀ (b : Board) (src dst : Coord) (e : ThudError),
        (b.dwarf_move src dst).1 = .error e → (b.dwarf_move src dst).2 = b)
    ∧ (∀ (b : Board) (src dst : Coord) (e : ThudError),
        (b.dwarf_hurl src dst).1 = .error e → (b.dwarf_hurl src dst).2 = b)
    ∧ (∀ (t : Thud) (src dst : Coord) (e : ThudError),
        (t.move_piece src dst).1 = .error e → (t.move_piece src dst).2 = t)
    ∧ (∀ (t : Thud) (src dst : Coord) (e : ThudError),
        (t.attack src dst).1 = .error e → (t.attack src dst).2 = t)
    ∧ (∀ (t : Thud) (src : Coord) (ts : List Direction) (e : ThudError),
        (t.troll_cap src ts).1 = .error e → (t.troll_cap src ts).2 = t) := by
  refine ⟨?_, ?_, ?_, ?_, ?_, ?_, ?_, ?_⟩
  · intro b src dst e h
    exact troll_move_err (Prod.ext h rfl)
  · intro b src dst e h
    exact troll_shove_err (Prod.ext h rfl)
  · intro b src ts e h
    exact troll_capture_err (Prod.ext h rfl)
  · intro b src dst e h
    exact dwarf_move_err (Prod.ext h rfl)
  · intro b src dst e h
    exact dwarf_hurl_err (Prod.ext h rfl)
  · intro t src dst e h
    exact move_piece_err (Prod.ext h rfl)
  · intro t src dst e h
    exact attack_err (Prod.ext h rfl)
  · intro t src ts e h
    exact troll_cap_err (Prod.ext h rfl)

/-- C7 witness: a failing hurl (`LineTooShort`) leaves the board untouched,
and a failing `troll_cap` (zero captured after a shove) leaves the game
untouched. -/
theorem failing_calls_leave_state_unchanged_witness :
    (loneDwarfBoard.dwarf_hurl ⟨7, 7⟩ ⟨7, 9⟩).2 = loneDwarfBoard
    ∧ (Thud.troll_cap ⟨loneTrollBoard, .PostTrollMove true⟩ ⟨7, 7⟩ []).2
        = ⟨loneTrollBoard, .PostTrollMove true⟩ :=
  ⟨failing_calls_leave_state_unchanged.2.2.2.2.1 loneDwarfBoard ⟨7, 7⟩ ⟨7, 9⟩
      (.LineTooShort 2 1) rfl,
   failing_calls_leave_state_unchanged.2.2.2.2.2.2.2 ⟨loneTrollBoard, .PostTrollMove true⟩
      ⟨7, 7⟩ [] .IllegalMove rfl⟩

/-! ### C9: the ended phase is latched -/

lemma applyOp_ended {t : Thud} {r : EndState} (h : t.state = .GameEnded r) (op : Op) :
    (applyOp t op).state = .GameEnded r := by
  cases op with
  | winnerQ =>
      unfold applyOp Thud.winner
      rw [h]
      exact h
  | movePiece src target =>
      unfold applyOp Thud.move_piece
      rw [h]
      exact h
  | attackMv src target =>
      unfold applyOp Thud.attack
      rw [h]
      exact h
  | trollCap troll targets =>
      unfold applyOp Thud.troll_cap
      rw [h]
      exact h

lemma applyOps_ended {t : Thud} {r : EndState} (h : t.state = .GameEnded r) (ops : List Op) :
    (applyOps t ops).state = .GameEnded r := by
  induction ops generalizing t with
  | nil => exact h
  | cons op rest ih => exact ih (applyOp_ended h op)

lemma winner_some_state {t : Thud} {r : EndState} (h : (Thud.winner t).1 = some r) :
    ((Thud.winner t).2).state = .GameEnded r := by
  unfold Thud.winner at h ⊢
  rcases hst : t.state with p | f | p
  all_goals rw [hst] at h
  all_goals dsimp only at h ⊢
  · rcases hw : t.board.winner with _ | q
    all_goals rw [hw] at h
    · cases h
    · cases h
      rfl
  · rcases hw : t.board.winner with _ | q
    all_goals rw [hw] at h
    · cases h
    · cases h
      rfl
  · cases h
    exact hst

lemma winner_of_ended {t : Thud} {r : EndState} (h : t.state = .GameEnded r) :
    Thud.winner t = (some r, t) := by
  unfold Thud.winner
  rw [h]

lemma turn_of_ended {t : Thud} {r : EndState} (h : t.state = .GameEnded r) :
    Thud.turn t = none := by
  unfold Thud.turn
  rw [h]

lemma move_piece_of_ended {t : Thud} {r : EndState} (h : t.state = .GameEnded r)
    (src dst : Coord) : Thud.move_piece t src dst = (.error .BadAction, t) := by
  unfold Thud.move_piece
  rw [h]

lemma attack_of_ended {t : Thud} {r : EndState} (h : t.state = .GameEnded r)
    (src dst : Coord) : Thud.attack t src dst = (.error .BadAction, t) := by
  unfold Thud.attack
  rw [h]

lemma troll_cap_of_ended {t : Thud} {r : EndState} (h : t.state = .GameEnded r)
    (src : Coord) (ts : List Direction) : Thud.troll_cap t src ts = (.error .BadAction, t) := by
  unfold Thud.troll_cap
  rw [h]

/-- C9: as soon as `winner()` returns `Some(r)` the phase is latched: after
*any* further sequence of API calls the game still reports the same winner
(without consulting the board: `Thud::winner` answers from the `GameEnded`
phase alone), `turn()` is `None`, and every `move_piece`/`attack`/`troll_cap`
call fails with `BadAction` leaving the game unchanged. -/
theorem winner_result_latched :
    ∀ (t : Thud) (r : EndState), (Thud.winner t).1 = some r →
    ∀ ops : List Op,
      (Thud.winner (applyOps (Thud.winner t).2 ops)).1 = some r
      ∧ Thud.turn (applyOps (Thud.winner t).2 ops) = none
      ∧ (∀ src dst : Coord,
          Thud.move_piece (applyOps (Thud.winner t).2 ops) src dst
            = (.error .BadAction, applyOps (Thud.winner t).2 ops))
      ∧ (∀ src dst : Coord,
          Thud.attack (applyOps (Thud.winner t).2 ops) src dst
            = (.error .BadAction, applyOps (Thud.winner t).2 ops))
      ∧ (∀ (src : Coord) (ts : List Direction),
          Thud.troll_cap (applyOps (Thud.winner t).2 ops) src ts
            = (.error .BadAction, applyOps (Thud.winner t).2 ops)) := by
  intro t r h ops
  have hend : (applyOps (Thud.winner t).2 ops).state = .GameEnded r :=
    applyOps_ended (winner_some_state h) ops
  exact ⟨by rw [winner_of_ended hend],
         turn_of_ended hend,
         fun src dst => move_piece_of_ended hend src dst,
         fun src dst => attack_of_ended hend src dst,
         fun src ts => troll_cap_of_ended hend src ts⟩

/-- C9 witness: an ended game (empty board, drawn) stays ended across a
subsequent query-and-move sequence, and a concrete late `move_piece` fails
with `BadAction`. -/
theorem winner_result_latched_witness :
    (Thud.winner (applyOps (Thud.winner ⟨Board.default, .GameEnded .Draw⟩).2
        [Op.winnerQ, Op.movePiece ⟨7, 7⟩ ⟨7, 8⟩])).1 = some .Draw
    ∧ Thud.turn (applyOps (Thud.winner ⟨Board.default, .GameEnded .Draw⟩).2
        [Op.winnerQ, Op.movePiece ⟨7, 7⟩ ⟨7, 8⟩]) = none :=
  ⟨(winner_result_latched ⟨Board.default, .GameEnded .Draw⟩ .Draw rfl
      [Op.winnerQ, Op.movePiece ⟨7, 7⟩ ⟨7, 8⟩]).1,
   (winner_result_latched ⟨Board.default, .GameEnded .Draw⟩ .Draw rfl
      [Op.winnerQ, Op.movePiece ⟨7, 7⟩ ⟨7, 8⟩]).2.1⟩

/-- `Board::troll_capture` when the source holds a troll: runs the capture
loop and reports its count. -/
lemma troll_capture_of_troll {b : Board} {troll : Coord} (targets : List Direction)
    (hget : b.get troll = Piece.Troll) :
    Board.troll_capture b troll targets
      = (.ok (capLoop troll b targets).1, (capLoop troll b targets).2) := by
  unfold Board.troll_capture
  rw [if_neg (not_not_intro hget)]

/-- `Board::troll_capture` when the source holds no troll: `IllegalMove`. -/
lemma troll_capture_of_not_troll {b : Board} {troll : Coord} (targets : List Direction)
    (hget : b.get troll ≠ Piece.Troll) :
    Board.troll_capture b troll targets = (.error .IllegalMove, b) := by
  unfold Board.troll_capture
  rw [if_pos hget]

/-- C8 amended: in `PostTrollMove(true)`, `troll_cap` fails with `IllegalMove`
and leaves board and phase unchanged whenever zero dwarves are captured —
including when the source square holds no troll, where `troll_capture`'s own
`IllegalMove` propagates — and transitions to `Nominal(Dwarf)` when at least
one dwarf is captured.  In `PostTrollMove(false)`, `troll_cap` succeeds and
transitions to `Nominal(Dwarf)` regardless of the number captured *provided
the source square holds a troll*; otherwise it fails with `IllegalMove` and
leaves the game unchanged. -/
theorem troll_cap_phase_behaviour :
    (∀ (t : Thud) (troll : Coord) (targets : List Direction),
      t.state = .PostTrollMove true →
        ((∀ b2 : Board,
            (Board.troll_capture t.board troll targets = (.error .IllegalMove, b2)
              ∨ Board.troll_capture t.board troll targets = (.ok 0, b2)) →
            Thud.troll_cap t troll targets = (.error .IllegalMove, t))
         ∧ (∀ (n : Nat) (b2 : Board),
            Board.troll_capture t.board troll targets = (.ok (n + 1), b2) →
            Thud.troll_cap t troll targets = (.ok (), ⟨b2, .Nominal .Dwarf⟩))))
    ∧ (∀ (t : Thud) (troll : Coord) (targets : List Direction),
      t.state = .PostTrollMove false →
        ((t.board.get troll = Piece.Troll →
            ∃ b2 : Board, Thud.troll_cap t troll targets = (.ok (), ⟨b2, .Nominal .Dwarf⟩))
         ∧ (t.board.get troll ≠ Piece.Troll →
            Thud.troll_cap t troll targets = (.error .IllegalMove, t)))) := by
  constructor
  · intro t troll targets hst
    obtain ⟨b, st⟩ := t
    dsimp only at hst
    subst hst
    constructor
    · rintro b2 (hcap | hcap)
      all_goals dsimp only at hcap
      · have hb := troll_capture_err hcap
        subst hb
        unfold Thud.troll_cap
        dsimp only
        rw [hcap]
      · have hb := troll_capture_ok_zero hcap
        subst hb
        unfold Thud.troll_cap
        dsimp only
        rw [hcap]
        dsimp only
        rw [if_pos rfl]
    · intro n b2 hcap
      dsimp only at hcap
      unfold Thud.troll_cap
      dsimp only
      rw [hcap]
      dsimp only
      rw [if_neg (Nat.succ_ne_zero n)]
  · intro t troll targets hst
    obtain ⟨b, st⟩ := t
    dsimp only at hst
    subst hst
    constructor
    · intro hget
      dsimp only at hget
      refine ⟨(capLoop troll b targets).2, ?_⟩
      unfold Thud.troll_cap
      dsimp only
      rw [troll_capture_of_troll targets hget]
    · intro hget
      dsimp only at hget
      unfold Thud.troll_cap
      dsimp only
      rw [troll_capture_of_not_troll targets hget]

/-- C8 witness: on a fresh board in `PostTrollMove(false)`, capturing nothing
from the troll at `(8,6)` succeeds and hands the turn to the dwarves. -/
theorem troll_cap_phase_behaviour_witness :
    ∃ b2 : Board,
      Thud.troll_cap ⟨Board.fresh, .PostTrollMove false⟩ ⟨8, 6⟩ []
        = (.ok (), ⟨b2, .Nominal .Dwarf⟩) :=
  (troll_cap_phase_behaviour.2 ⟨Board.fresh, .PostTrollMove false⟩ ⟨8, 6⟩ [] rfl).1
    (by decide!)


/-! ### C10: direction round trip along a straight line -/

/-- Iterated `Direction::modify`: apply the step `n` times, propagating the
first failure (so a successful result certifies that every intermediate step
succeeded). -/
def stepN (d : Direction) : Nat → Coord → Except ThudError Coord
  | 0, c => .ok c
  | n + 1, c =>
    match d.modify c with
    | .ok c2 => stepN d n c2
    | .error e => .error e

lemma modify_up {x y : Nat} (h : InRegion x (y + 1)) :
    Direction.modify .Up ⟨x, y⟩ = .ok ⟨x, y + 1⟩ := by
  unfold Direction.modify
  norm_num [Direction.modifier, Coord.value]
  rw [zero_based_ok_of h]

lemma modify_upright {x y : Nat} (h : InRegion (x + 1) (y + 1)) :
    Direction.modify .UpRight ⟨x, y⟩ = .ok ⟨x + 1, y + 1⟩ := by
  unfold Direction.modify
  norm_num [Direction.modifier, Coord.value]
  rw [zero_based_ok_of h]

lemma modify_right {x y : Nat} (h : InRegion (x + 1) y) :
    Direction.modify .Right ⟨x, y⟩ = .ok ⟨x + 1, y⟩ := by
  unfold Direction.modify
  norm_num [Direction.modifier, Coord.value]
  rw [zero_based_ok_of h]

lemma modify_downright {x y : Nat} (hy : y ≠ 0) (h : InRegion (x + 1) (y - 1)) :
    Direction.modify .DownRight ⟨x, y⟩ = .ok ⟨x + 1, y - 1⟩ := by
  unfold Direction.modify
  norm_num [Direction.modifier, Coord.value, hy]
  rw [zero_based_ok_of h]

lemma modify_down {x y : Nat} (hy : y ≠ 0) (h : InRegion x (y - 1)) :
    Direction.modify .Down ⟨x, y⟩ = .ok ⟨x, y - 1⟩ := by
  unfold Direction.modify
  norm_num [Direction.modifier, Coord.value, hy]
  rw [zero_based_ok_of h]

lemma modify_downleft {x y : Nat} (hx : x ≠ 0) (hy : y ≠ 0) (h : InRegion (x - 1) (y - 1)) :
    Direction.modify .DownLeft ⟨x, y⟩ = .ok ⟨x - 1, y - 1⟩ := by
  unfold Direction.modify
  norm_num [Direction.modifier, Coord.value, hx, hy]
  rw [zero_based_ok_of h]

lemma modify_left {x y : Nat} (hx : x ≠ 0) (h : InRegion (x - 1) y) :
    Direction.modify .Left ⟨x, y⟩ = .ok ⟨x - 1, y⟩ := by
  unfold Direction.modify
  norm_num [Direction.modifier, Coord.value, hx]
  rw [zero_based_ok_of h]

lemma modify_upleft {x y : Nat} (hx : x ≠ 0) (h : InRegion (x - 1) (y + 1)) :
    Direction.modify .UpLeft ⟨x, y⟩ = .ok ⟨x - 1, y + 1⟩ := by
  unfold Direction.modify
  norm_num [Direction.modifier, Coord.value, hx]
  rw [zero_based_ok_of h]

lemma stepN_up (k : Nat) : ∀ x ys yd : Nat, 0 < k → ys + k = yd →
    InRegion x ys → InRegion x yd → stepN .Up k ⟨x, ys⟩ = .ok ⟨x, yd⟩ := by
  induction k with
  | zero => intro x ys yd h _ _ _; exact absurd h (lt_irrefl 0)
  | succ n ih =>
    intro x ys yd _ hsum hs hd
    have hmid : InRegion x (ys + 1) := by unfold InRegion at *; omega
    unfold stepN
    rw [modify_up hmid]
    rcases Nat.eq_zero_or_pos n with hn | hn
    · subst hn
      rw [show ys + 1 = yd by omega]
      rfl
    · exact ih x (ys + 1) yd hn (by omega) hmid hd

lemma stepN_down (k : Nat) : ∀ x ys yd : Nat, 0 < k → yd + k = ys →
    InRegion x ys → InRegion x yd → stepN .Down k ⟨x, ys⟩ = .ok ⟨x, yd⟩ := by
  induction k with
  | zero => intro x ys yd h _ _ _; exact absurd h (lt_irrefl 0)
  | succ n ih =>
    intro x ys yd _ hsum hs hd
    have hmid : InRegion x (ys - 1) := by unfold InRegion at *; omega
    unfold stepN
    rw [modify_down (by omega) hmid]
    rcases Nat.eq_zero_or_pos n with hn | hn
    · subst hn
      rw [show ys - 1 = yd by omega]
      rfl
    · exact ih x (ys - 1) yd hn (by omega) hmid hd

lemma stepN_right (k : Nat) : ∀ xs xd y : Nat, 0 < k → xs + k = xd →
    InRegion xs y → InRegion xd y → stepN .Right k ⟨xs, y⟩ = .ok ⟨xd, y⟩ := by
  induction k with
  | zero => intro xs xd y h _ _ _; exact absurd h (lt_irrefl 0)
  | succ n ih =>
    intro xs xd y _ hsum hs hd
    have hmid : InRegion (xs + 1) y := by unfold InRegion at *; omega
    unfold stepN
    rw [modify_right hmid]
    rcases Nat.eq_zero_or_pos n with hn | hn
    · subst hn
      rw [show xs + 1 = xd by omega]
      rfl
    · exact ih (xs + 1) xd y hn (by omega) hmid hd

lemma stepN_left (k : Nat) : ∀ xs xd y : Nat, 0 < k → xd + k = xs →
    InRegion xs y → InRegion xd y → stepN .Left k ⟨xs, y⟩ = .ok ⟨xd, y⟩ := by
  induction k with
  | zero => intro xs xd y h _ _ _; exact absurd h (lt_irrefl 0)
  | succ n ih =>
    intro xs xd y _ hsum hs hd
    have hmid : InRegion (xs - 1) y := by unfold InRegion at *; omega
    unfold stepN
    rw [modify_left (by omega) hmid]
    rcases Nat.eq_zero_or_pos n with hn | hn
    · subst hn
      rw [show xs - 1 = xd by omega]
      rfl
    · exact ih (xs - 1) xd y hn (by omega) hmid hd

lemma stepN_upright (k : Nat) : ∀ xs ys xd yd : Nat, 0 < k → xs + k = xd → ys + k = yd →
    InRegion xs ys → InRegion xd yd → stepN .UpRight k ⟨xs, ys⟩ = .ok ⟨xd, yd⟩ := by
  induction k with
  | zero => intro xs ys xd yd h _ _ _ _; exact absurd h (lt_irrefl 0)
  | succ n ih =>
    intro xs ys xd yd _ hx hy hs hd
    have hmid : InRegion (xs + 1) (ys + 1) := by unfold InRegion at *; omega
    unfold stepN
    rw [modify_upright hmid]
    rcases Nat.eq_zero_or_pos n with hn | hn
    · subst hn
      rw [show xs + 1 = xd by omega, show ys + 1 = yd by omega]
      rfl
    · exact ih (xs + 1) (ys + 1) xd yd hn (by omega) (by omega) hmid hd

lemma stepN_downright (k : Nat) : ∀ xs ys xd yd : Nat, 0 < k → xs + k = xd → yd + k = ys →
    InRegion xs ys → InRegion xd yd → stepN .DownRight k ⟨xs, ys⟩ = .ok ⟨xd, yd⟩ := by
  induction k with
  | zero => intro xs ys xd yd h _ _ _ _; exact absurd h (lt_irrefl 0)
  | succ n ih =>
    intro xs ys xd yd _ hx hy hs hd
    have hmid : InRegion (xs + 1) (ys - 1) := by unfold InRegion at *; omega
    unfold stepN
    rw [modify_downright (by omega) hmid]
    rcases Nat.eq_zero_or_pos n with hn | hn
    · subst hn
      rw [show xs + 1 = xd by omega, show ys - 1 = yd by omega]
      rfl
    · exact ih (xs + 1) (ys - 1) xd yd hn (by omega) (by omega) hmid hd

lemma stepN_upleft (k : Nat) : ∀ xs ys xd yd : Nat, 0 < k → xd + k = xs → ys + k = yd →
    InRegion xs ys → InRegion xd yd → stepN .UpLeft k ⟨xs, ys⟩ = .ok ⟨xd, yd⟩ := by
  induction k with
  | zero => intro xs ys xd yd h _ _ _ _; exact absurd h (lt_irrefl 0)
  | succ n ih =>
    intro xs ys xd yd _ hx hy hs hd
    have hmid : InRegion (xs - 1) (ys + 1) := by unfold InRegion at *; omega
    unfold stepN
    rw [modify_upleft (by omega) hmid]
    rcases Nat.eq_zero_or_pos n with hn | hn
    · subst hn
      rw [show xs - 1 = xd by omega, show ys + 1 = yd by omega]
      rfl
    · exact ih (xs - 1) (ys + 1) xd yd hn (by omega) (by omega) hmid hd

lemma stepN_downleft (k : Nat) : ∀ xs ys xd yd : Nat, 0 < k → xd + k = xs → yd + k = ys →
    InRegion xs ys → InRegion xd yd → stepN .DownLeft k ⟨xs, ys⟩ = .ok ⟨xd, yd⟩ := by
  induction k with
  | zero => intro xs ys xd yd h _ _ _ _; exact absurd h (lt_irrefl 0)
  | succ n ih =>
    intro xs ys xd yd _ hx hy hs hd
    have hmid : InRegion (xs - 1) (ys - 1) := by unfold InRegion at *; omega
    unfold stepN
    rw [modify_downleft (by omega) (by omega) hmid]
    rcases Nat.eq_zero_or_pos n with hn | hn
    · subst hn
      rw [show xs - 1 = xd by omega, show ys - 1 = yd by omega]
      rfl
    · exact ih (xs - 1) (ys - 1) xd yd hn (by omega) (by omega) hmid hd

lemma from_route_up {a b : Coord} (hx : a.x = b.x) (hy : a.y < b.y) :
    Direction.from_route a b = .ok .Up := by
  have hne : a ≠ b := fun he => by rw [he] at hy; exact lt_irrefl _ hy
  unfold Direction.from_route
  rw [if_neg hne]
  dsimp only [Coord.value]
  rw [if_pos hx, if_pos hy]

lemma from_route_down {a b : Coord} (hx : a.x = b.x) (hy : b.y < a.y) :
    Direction.from_route a b = .ok .Down := by
  have hne : a ≠ b := fun he => by rw [he] at hy; exact lt_irrefl _ hy
  unfold Direction.from_route
  rw [if_neg hne]
  dsimp only [Coord.value]
  rw [if_pos hx, if_neg (by omega : ¬ a.y < b.y)]

lemma from_route_right {a b : Coord} (hx : a.x < b.x) (hy : a.y = b.y) :
    Direction.from_route a b = .ok .Right := by
  have hne : a ≠ b := fun he => by rw [he] at hx; exact lt_irrefl _ hx
  unfold Direction.from_route
  rw [if_neg hne]
  dsimp only [Coord.value]
  rw [if_neg (by omega : ¬ a.x = b.x), if_pos hy, if_pos hx]

lemma from_route_left {a b : Coord} (hx : b.x < a.x) (hy : a.y = b.y) :
    Direction.from_route a b = .ok .Left := by
  have hne : a ≠ b := fun he => by rw [he] at hx; exact lt_irrefl _ hx
  unfold Direction.from_route
  rw [if_neg hne]
  dsimp only [Coord.value]
  rw [if_neg (by omega : ¬ a.x = b.x), if_pos hy, if_neg (by omega : ¬ a.x < b.x)]

lemma from_route_upright {a b : Coord} (hx : a.x < b.x) (hy : a.y < b.y)
    (hd : (a.diff b).x = (a.diff b).y) :
    Direction.from_route a b = .ok .UpRight := by
  have hne : a ≠ b := fun he => by rw [he] at hx; exact lt_irrefl _ hx
  unfold Direction.from_route
  rw [if_neg hne]
  dsimp only [Coord.value]
  rw [if_neg (by omega : ¬ a.x = b.x), if_neg (by omega : ¬ a.y = b.y), if_pos hd,
    if_pos hx, if_pos hy]

lemma from_route_downright {a b : Coord} (hx : a.x < b.x) (hy : b.y < a.y)
    (hd : (a.diff b).x = (a.diff b).y) :
    Direction.from_route a b = .ok .DownRight := by
  have hne : a ≠ b := fun he => by rw [he] at hx; exact lt_irrefl _ hx
  unfold Direction.from_route
  rw [if_neg hne]
  dsimp only [Coord.value]
  rw [if_neg (by omega : ¬ a.x = b.x), if_neg (by omega : ¬ a.y = b.y), if_pos hd,
    if_pos hx, if_neg (by omega : ¬ a.y < b.y)]

lemma from_route_upleft {a b : Coord} (hx : b.x < a.x) (hy : a.y < b.y)
    (hd : (a.diff b).x = (a.diff b).y) :
    Direction.from_route a b = .ok .UpLeft := by
  have hne : a ≠ b := fun he => by rw [he] at hx; exact lt_irrefl _ hx
  unfold Direction.from_route
  rw [if_neg hne]
  dsimp only [Coord.value]
  rw [if_neg (by omega : ¬ a.x = b.x), if_neg (by omega : ¬ a.y = b.y), if_pos hd,
    if_neg (by omega : ¬ a.x < b.x), if_pos hy]

lemma from_route_downleft {a b : Coord} (hx : b.x < a.x) (hy : b.y < a.y)
    (hd : (a.diff b).x = (a.diff b).y) :
    Direction.from_route a b = .ok .DownLeft := by
  have hne : a ≠ b := fun he => by rw [he] at hx; exact lt_irrefl _ hx
  unfold Direction.from_route
  rw [if_neg hne]
  dsimp only [Coord.value]
  rw [if_neg (by omega : ¬ a.x = b.x), if_neg (by omega : ¬ a.y = b.y), if_pos hd,
    if_neg (by omega : ¬ a.x < b.x), if_neg (by omega : ¬ a.y < b.y)]

/-- C10: for distinct valid coordinates joined by a horizontal, vertical, or
exact-45°-diagonal line, `from_route` succeeds, and iterating its `modify`
step Chebyshev-distance many times from `a` succeeds at each step (a `stepN`
success certifies every intermediate `modify` succeeded) and lands on `b`. -/
theorem direction_route_round_trip :
    ∀ a b : Coord, a.isValid = true → b.isValid = true → a ≠ b →
      (a.x = b.x ∨ a.y = b.y ∨ (a.diff b).x = (a.diff b).y) →
      ∃ d, Direction.from_route a b = .ok d
        ∧ stepN d ((a.diff b).max) a = .ok b := by
  intro a b hva hvb hne hcol
  rw [isValid_iff] at hva hvb
  obtain ⟨ax, ay⟩ := a
  obtain ⟨bx, byy⟩ := b
  dsimp only at hva hvb hcol ⊢
  rcases Nat.lt_trichotomy ax bx with hx | hx | hx <;>
    rcases Nat.lt_trichotomy ay byy with hy | hy | hy
  · -- ax < bx, ay < byy : UpRight
    have hdiag : ((⟨ax, ay⟩ : Coord).diff ⟨bx, byy⟩).x = ((⟨ax, ay⟩ : Coord).diff ⟨bx, byy⟩).y := by
      rcases hcol with h | h | h
      · omega
      · omega
      · exact h
    have hd : bx - ax = byy - ay := by
      unfold Coord.diff at hdiag
      dsimp only at hdiag
      split_ifs at hdiag <;> omega
    refine ⟨.UpRight, from_route_upright hx hy hdiag, ?_⟩
    have hm : ((⟨ax, ay⟩ : Coord).diff ⟨bx, byy⟩).max = bx - ax := by
      unfold Coord.diff Coord.max
      dsimp only
      split_ifs <;> omega
    rw [hm]
    exact stepN_upright (bx - ax) ax ay bx byy (by omega) (by omega) (by omega) hva hvb
  · -- ax < bx, ay = byy : Right
    refine ⟨.Right, from_route_right hx hy, ?_⟩
    have hm : ((⟨ax, ay⟩ : Coord).diff ⟨bx, byy⟩).max = bx - ax := by
      unfold Coord.diff Coord.max
      dsimp only
      split_ifs <;> omega
    rw [hm]
    subst hy
    exact stepN_right (bx - ax) ax bx ay (by omega) (by omega) hva hvb
  · -- ax < bx, byy < ay : DownRight
    have hdiag : ((⟨ax, ay⟩ : Coord).diff ⟨bx, byy⟩).x = ((⟨ax, ay⟩ : Coord).diff ⟨bx, byy⟩).y := by
      rcases hcol with h | h | h
      · omega
      · omega
      · exact h
    have hd : bx - ax = ay - byy := by
      unfold Coord.diff at hdiag
      dsimp only at hdiag
      split_ifs at hdiag <;> omega
    refine ⟨.DownRight, from_route_downright hx hy hdiag, ?_⟩
    have hm : ((⟨ax, ay⟩ : Coord).diff ⟨bx, byy⟩).max = bx - ax := by
      unfold Coord.diff Coord.max
      dsimp only
      split_ifs <;> omega
    rw [hm]
    exact stepN_downright (bx - ax) ax ay bx byy (by omega) (by omega) (by omega) hva hvb
  · -- ax = bx, ay < byy : Up
    refine ⟨.Up, from_route_up hx hy, ?_⟩
    have hm : ((⟨ax, ay⟩ : Coord).diff ⟨bx, byy⟩).max = byy - ay := by
      unfold Coord.diff Coord.max
      dsimp only
      split_ifs <;> omega
    rw [hm]
    subst hx
    exact stepN_up (byy - ay) ax ay byy (by omega) (by omega) hva hvb
  · -- ax = bx, ay = byy : impossible
    exact absurd (by rw [hx, hy] : (⟨ax, ay⟩ : Coord) = ⟨bx, byy⟩) hne
  · -- ax = bx, byy < ay : Down
    refine ⟨.Down, from_route_down hx hy, ?_⟩
    have hm : ((⟨ax, ay⟩ : Coord).diff ⟨bx, byy⟩).max = ay - byy := by
      unfold Coord.diff Coord.max
      dsimp only
      split_ifs <;> omega
    rw [hm]
    subst hx
    exact stepN_down (ay - byy) ax ay byy (by omega) (by omega) hva hvb
  · -- bx < ax, ay < byy : UpLeft
    have hdiag : ((⟨ax, ay⟩ : Coord).diff ⟨bx, byy⟩).x = ((⟨ax, ay⟩ : Coord).diff ⟨bx, byy⟩).y := by
      rcases hcol with h | h | h
      · omega
      · omega
      · exact h
    have hd : ax - bx = byy - ay := by
      unfold Coord.diff at hdiag
      dsimp only at hdiag
      split_ifs at hdiag <;> omega
    refine ⟨.UpLeft, from_route_upleft hx hy hdiag, ?_⟩
    have hm : ((⟨ax, ay⟩ : Coord).diff ⟨bx, byy⟩).max = ax - bx := by
      unfold Coord.diff Coord.max
      dsimp only
      split_ifs <;> omega
    rw [hm]
    exact stepN_upleft (ax - bx) ax ay bx byy (by omega) (by omega) (by omega) hva hvb
  · -- bx < ax, ay = byy : Left
    refine ⟨.Left, from_route_left hx hy, ?_⟩
    have hm : ((⟨ax, ay⟩ : Coord).diff ⟨bx, byy⟩).max = ax - bx := by
      unfold Coord.diff Coord.max
      dsimp only
      split_ifs <;> omega
    rw [hm]
    subst hy
    exact stepN_left (ax - bx) ax bx ay (by omega) (by omega) hva hvb
  · -- bx < ax, byy < ay : DownLeft
    have hdiag : ((⟨ax, ay⟩ : Coord).diff ⟨bx, byy⟩).x = ((⟨ax, ay⟩ : Coord).diff ⟨bx, byy⟩).y := by
      rcases hcol with h | h | h
      · omega
      · omega
      · exact h
    have hd : ax - bx = ay - byy := by
      unfold Coord.diff at hdiag
      dsimp only at hdiag
      split_ifs at hdiag <;> omega
    refine ⟨.DownLeft, from_route_downleft hx hy hdiag, ?_⟩
    have hm : ((⟨ax, ay⟩ : Coord).diff ⟨bx, byy⟩).max = ax - bx := by
      unfold Coord.diff Coord.max
      dsimp only
      split_ifs <;> omega
    rw [hm]
    exact stepN_downleft (ax - bx) ax ay bx byy (by omega) (by omega) (by omega) hva hvb

/-- C10 witness: from `(4,9)` to `(6,7)` — distinct, valid, diagonal — the
computed direction is `DownRight` and two steps land exactly on `(6,7)`. -/
theorem direction_route_round_trip_witness :
    ∃ d, Direction.from_route ⟨4, 9⟩ ⟨6, 7⟩ = .ok d
      ∧ stepN d (((⟨4, 9⟩ : Coord).diff ⟨6, 7⟩).max) ⟨4, 9⟩ = .ok ⟨6, 7⟩ :=
  direction_route_round_trip ⟨4, 9⟩ ⟨6, 7⟩ (by decide) (by decide) (by decide) (by decide)

end ThudGame
